import Mathlib

/-!
Verification development for the burro typesetting engine's layout module
(`src/layout.rs`), with supporting type definitions from `src/alignment.rs`,
`src/fonts.rs`, `src/error.rs` and `src/parser.rs`.

Modelling conventions:
* Rust `f64` values are modelled as exact rationals (`ℚ`); all arithmetic in
  the layout engine is `+ - * /`, so the rational model tracks the float
  computation exactly up to rounding.
* Rust `Vec` save-stacks (push/pop at the back) are modelled as Lean lists
  with cons/head at the front; the LIFO behaviour is identical.
* Fallible Rust code returning `Result<_, BurroError>` is modelled with
  `Except BurroError`; a Rust panic (`unreachable!()`) is modelled by the
  `PanicOr.panic` outcome, distinct from any returned error.
* External collaborators (font shaper, hyphenation dictionary, file I/O)
  are out of scope per the spec; their outputs (glyph advances, break
  offsets) appear as explicit inputs to the modelled functions.
* The `Command` type below covers the arms of `LayoutBuilder::handle_command`
  that the verified claims are about; the tab- and margin-related arms
  (`Margins`, `Columns`, `DefineTab`, `TabList`, `LoadTabs`, `Tab`, `NextTab`,
  `PreviousTab`, `QuitTabs`, `VSpace`, `PtSize`, `Ligatures`) are not
  embedded.  Every embedded arm is translated in full from the source.
-/

namespace Burro

/-- Alignment, from `src/alignment.rs`. -/
inductive Alignment where
  | left
  | right
  | center
  | justify
deriving DecidableEq, Repr

/-- Font style bitmask, from `src/fonts.rs` (bitflags over u32). -/
structure Font where
  bits : ℕ
deriving DecidableEq, Repr

/-- Font::ROMAN from `src/fonts.rs`. -/
def Font.roman : Font := ⟨0⟩

/-- Font::BOLD from `src/fonts.rs`. -/
def Font.bold : Font := ⟨1⟩

/-- Layout-relevant error variants of `BurroError` from `src/error.rs`. -/
inductive BurroError where
  | emptyReset
  | invalidRelative
  | unmappedFont
  | faceParsingError
deriving DecidableEq, Repr

/-- ResetArg, from `src/parser.rs` lines 48-53. -/
inductive ResetArg (α : Type) where
  | explicit (a : α)
  | relative (a : α)
  | reset
deriving DecidableEq, Repr

/-- Outcome of running Rust code that may panic: either the value, or an
abort via a panic such as `unreachable!()`.  A panic is not a returned
value and in particular is not an `Except.error`. -/
inductive PanicOr (α : Type) where
  | ok (a : α)
  | panic
deriving DecidableEq, Repr

/-- Position, from `src/layout.rs` lines 204-208. -/
structure Position where
  x : ℚ
  y : ℚ
deriving DecidableEq, Repr

/-- BurroBox, from `src/layout.rs` lines 189-202. -/
inductive BurroBox where
  | glyph (pos : Position) (id : ℕ) (font : ℕ) (pts : ℚ)
  | rule (start_pos : Position) (end_pos : Position) (weight : ℚ)
deriving DecidableEq, Repr

/-- Page, from `src/layout.rs` lines 23-28 (field order as in the source). -/
structure Page where
  boxes : List BurroBox
  height : ℚ
  width : ℚ
deriving DecidableEq, Repr

/-- Page::new, from `src/layout.rs` lines 31-37. -/
def Page.new (width height : ℚ) : Page :=
  { boxes := [], height := height, width := width }

/-- Layout, from `src/layout.rs` lines 18-21. -/
structure Layout where
  pages : List Page
deriving DecidableEq, Repr

/-- LetterPos, from `src/layout.rs` lines 40-52. -/
structure LetterPos where
  glyph_id : ℕ
  font_id : ℕ
  pt_size : ℚ
  width : ℚ
  delta_y : ℚ
  delta_x : ℚ
deriving DecidableEq, Repr

/-- EmitChunk, from `src/layout.rs` lines 54-70. -/
inductive EmitChunk where
  | word (pt_size : ℚ) (glyphs : List LetterPos) (str : String)
  | space (pt_size : ℚ) (width : ℚ)
  | nonBreakingSpace (pt_size : ℚ) (width : ℚ)
deriving DecidableEq, Repr

/-- EmitChunk::is_space, from `src/layout.rs` lines 152-157. -/
def EmitChunk.is_space : EmitChunk → Bool
  | .word .. => false
  | .space .. => true
  | .nonBreakingSpace .. => true

/-- EmitChunk::width, from `src/layout.rs` lines 159-171. -/
def EmitChunk.width : EmitChunk → ℚ
  | .word _ glyphs _ =>
    match glyphs.getLast? with
    | none => 0
    | some last => last.delta_x + last.width
  | .space _ width => width
  | .nonBreakingSpace _ width => width

/-- EmitChunk::pt_size, from `src/layout.rs` lines 173-179. -/
def EmitChunk.ptSize : EmitChunk → ℚ
  | .word pt_size _ _ => pt_size
  | .space pt_size _ => pt_size
  | .nonBreakingSpace pt_size _ => pt_size

/-- RuleOptions, from `src/parser.rs` lines 79-84. -/
structure RuleOptions where
  width : ℚ
  indent : ℚ
  weight : ℚ
deriving DecidableEq, Repr

/-- BurroParams, from `src/layout.rs` lines 235-256. -/
structure BurroParams where
  margin_top : ℚ
  margin_bottom : ℚ
  page_margin_left : ℚ
  page_margin_right : ℚ
  col_margin_left : ℚ
  col_margin_right : ℚ
  alignment : Alignment
  leading : ℚ
  pt_size : ℚ
  page_width : ℚ
  space_width : ℚ
  min_space_width : ℚ
  page_height : ℚ
  par_space : ℚ
  font_family : String
  par_indent : ℚ
  hyphenate : Bool
  consecutive_hyphens : ℕ
  letter_space : ℚ
  ligatures : Bool
deriving DecidableEq, Repr

/-- Point2D, from `src/layout.rs` lines 258-262. -/
structure Point2D where
  x : ℚ
  y : ℚ
deriving DecidableEq, Repr

/-- The mutable state of LayoutBuilder, from `src/layout.rs` lines 264-304.
The tab-related fields (`current_tabs`, `current_tab_ix`, `current_tab`,
`pre_tab_config`, `tab_lists`, `tab_top`) and the font-data/font-map handles
are omitted: no embedded command arm touches them. -/
structure BurroState where
  params : BurroParams
  cursor : Point2D
  pages : List Page
  font : Font
  current_page : Page
  emit_chunks : List EmitChunk
  par_counter : ℕ
  alignments : List Alignment
  margins : List ℚ
  pt_sizes : List ℚ
  pending_width : Option ℚ
  pending_height : Option ℚ
  page_heights : List ℚ
  page_widths : List ℚ
  leadings : List ℚ
  space_widths : List ℚ
  par_indents : List ℚ
  par_spaces : List ℚ
  families : List String
  fonts : List Font
  consecutive_hyphens : List ℕ
  indent_first : Bool
  hyphens : ℕ
  letter_spaces : List ℚ
  current_col : ℕ
  column_count : ℕ
  column_width : ℚ
  column_gutter : ℚ
  column_top : ℚ
  column_bottom : ℚ
deriving DecidableEq, Repr

/-- UpdateRelative, from `src/layout.rs` lines 210-233.  The Rust trait's
default `update` body is `unreachable!()`; the `f64` and `u64` instances
override it with addition, while `Font` and `String` keep the panicking
default (the source comments: "This should only be implemented for legal
relative values (i.e., not fonts/strings)"). -/
class UpdateRelative (α : Type) where
  update : α → α → PanicOr α

instance : UpdateRelative ℚ := ⟨fun v delta => .ok (v + delta)⟩

instance : UpdateRelative ℕ := ⟨fun v delta => .ok (v + delta)⟩

instance : UpdateRelative Font := ⟨fun _ _ => .panic⟩

instance : UpdateRelative String := ⟨fun _ _ => .panic⟩

/-- handle_reset_val, from `src/layout.rs` lines 1512-1536.  The Rust
function mutates `value` and `queue` in place and returns
`Result<(), BurroError>`; here the updated pair is returned. -/
def handle_reset_val {α : Type} [UpdateRelative α] (input : ResetArg α)
    (value : α) (queue : List α) : PanicOr (Except BurroError (α × List α)) :=
  match input with
  | .explicit i => .ok (.ok (i, value :: queue))
  | .relative delta =>
    match UpdateRelative.update value delta with
    | .ok v => .ok (.ok (v, value :: queue))
    | .panic => .panic
  | .reset =>
    match queue with
    | [] => .ok (.error .emptyReset)
    | i :: rest => .ok (.ok (i, rest))

/-- LayoutBuilder::set_alignment, from `src/layout.rs` lines 429-432. -/
def set_alignment (s : BurroState) (alignment : Alignment) : BurroState :=
  { s with params.alignment := alignment,
           alignments := s.params.alignment :: s.alignments }

/-- LayoutBuilder::set_cursor_top_left, from `src/layout.rs` lines 454-458. -/
def set_cursor_top_left (s : BurroState) : BurroState :=
  { s with cursor :=
      { x := s.params.page_margin_left,
        y := s.params.page_height
             - (s.params.margin_top + s.params.pt_size + s.params.leading) } }

/-- LayoutBuilder::next_page_dims, from `src/layout.rs` lines 1438-1462.
The Rust function mutates the builder and returns the `(width, height)`
pair; the pair equals the final `params.page_width`/`page_height`, so only
the updated state is returned here. -/
def next_page_dims (s : BurroState) : BurroState :=
  let s :=
    match s.pending_width with
    | some w =>
      { s with params.page_width := w,
               page_widths := s.params.page_width :: s.page_widths,
               pending_width := none,
               column_width :=
                 w - s.params.page_margin_left - s.params.page_margin_right }
    | none => s
  match s.pending_height with
  | some h =>
    { s with params.page_height := h,
             page_heights := s.params.page_height :: s.page_heights,
             pending_height := none }
  | none => s

/-- LayoutBuilder::finish_page, from `src/layout.rs` lines 1042-1046,
inlining `new_page` (lines 1037-1040): build the next page from
`next_page_dims`, push the old current page onto `pages`. -/
def finish_page (s : BurroState) : BurroState :=
  let s := next_page_dims s
  { s with pages := s.pages ++ [s.current_page],
           current_page := Page.new s.params.page_width s.params.page_height }

/-- LayoutBuilder::move_to_next_page, from `src/layout.rs` lines 1008-1016.
Note: the cursor's x coordinate is not assigned here. -/
def move_to_next_page (s : BurroState) : BurroState :=
  let s := finish_page s
  let y := s.params.page_height
           - (s.params.margin_top + s.params.pt_size + s.params.leading)
  { s with cursor.y := y,
           current_col := 1,
           params.col_margin_left := s.params.page_margin_left,
           params.col_margin_right := s.params.page_margin_left + s.column_width,
           column_top := y }

/-- LayoutBuilder::advance_y_cursor, from `src/layout.rs` lines 1464-1481. -/
def advance_y_cursor (s : BurroState) (delta_y : ℚ) : BurroState :=
  let s := { s with cursor.y := s.cursor.y - delta_y }
  let s := if s.current_col = 1 then { s with column_bottom := s.cursor.y } else s
  if s.cursor.y < s.params.margin_bottom then
    if s.current_col ≥ s.column_count then
      move_to_next_page s
    else
      { s with current_col := s.current_col + 1,
               params.col_margin_left :=
                 s.params.col_margin_left + (s.column_width + s.column_gutter),
               params.col_margin_right :=
                 s.params.col_margin_right + (s.column_width + s.column_gutter),
               cursor.y := s.column_top }
  else s

/-- LayoutBuilder::total_line_width, from `src/layout.rs` lines 1483-1505. -/
def total_line_width (s : BurroState) (line : List EmitChunk) : ℚ :=
  match line with
  | [] => 0
  | _ =>
    let word_width : ℚ :=
      ((line.filter (fun w => !w.is_space)).map EmitChunk.width).sum
    let space_count : ℕ := (line.filter (fun w => w.is_space)).length
    let space_count : ℕ :=
      match line.getLast? with
      | some w => if w.is_space then space_count - 1 else space_count
      | none => space_count
    word_width + s.params.space_width * space_count

/-- LayoutBuilder::justified_space_width, from `src/layout.rs` lines
1429-1436.  In Rust a line without spaces divides by zero yielding an
infinite `f64`; in ℚ the quotient is 0.  Every use of the result guards it
behind the presence of a space chunk, where the two agree. -/
def justified_space_width (s : BurroState) (line : List EmitChunk) : ℚ :=
  let total_width := total_line_width s line
  let available :=
    s.column_width - total_width - (s.cursor.x - s.params.col_margin_left)
  let space_count : ℕ := (line.filter (fun w => w.is_space)).length
  s.params.space_width + available / (space_count : ℚ)

/-- Append a glyph box for `g` at the current cursor, as in the loop body of
LayoutBuilder::emit_chunk (`src/layout.rs` lines 1387-1396). -/
def push_glyph_box (s : BurroState) (g : LetterPos) : BurroState :=
  { s with current_page.boxes :=
      s.current_page.boxes ++
        [BurroBox.glyph ⟨s.cursor.x, s.cursor.y⟩ g.glyph_id g.font_id g.pt_size] }

/-- The per-glyph loop of LayoutBuilder::emit_chunk on a Word chunk, from
`src/layout.rs` lines 1386-1405: position each glyph at `start_x + delta_x`,
record its box, advance y when `delta_y > 0`, and after the last glyph move
the cursor past it. -/
def emit_glyphs (start_x : ℚ) : BurroState → List LetterPos → BurroState
  | s, [] => s
  | s, [g] =>
    let s := { s with cursor.x := start_x + g.delta_x }
    let s := push_glyph_box s g
    let s := if g.delta_y > 0 then advance_y_cursor s g.delta_y else s
    { s with cursor.x := s.cursor.x + g.width }
  | s, g :: g' :: rest =>
    let s := { s with cursor.x := start_x + g.delta_x }
    let s := push_glyph_box s g
    let s := if g.delta_y > 0 then advance_y_cursor s g.delta_y else s
    emit_glyphs start_x s (g' :: rest)

/-- LayoutBuilder::emit_chunk, from `src/layout.rs` lines 1382-1415. -/
def emit_chunk (s : BurroState) (chunk : EmitChunk) (space_width : Option ℚ) :
    BurroState :=
  let start_x := s.cursor.x
  match chunk with
  | .word _ glyphs _ => emit_glyphs start_x s glyphs
  | .space _ width | .nonBreakingSpace _ width =>
    match space_width with
    | some w => { s with cursor.x := s.cursor.x + w }
    | none => { s with cursor.x := s.cursor.x + width }

/-- The trailing-space-stripping loop at the top of
LayoutBuilder::finalize_line (`src/layout.rs` lines 1313-1324): pop chunks
from the back while the last chunk is a space. -/
def trim_trailing : List EmitChunk → List EmitChunk
  | [] => []
  | c :: rest =>
    match trim_trailing rest with
    | [] => if c.is_space then [] else [c]
    | r :: rs => c :: r :: rs

/-- The alignment dispatch at the end of LayoutBuilder::finalize_line,
from `src/layout.rs` lines 1342-1379. -/
def finalize_line_dispatch (s : BurroState) (line : List EmitChunk)
    (last : Bool) : BurroState :=
  match s.params.alignment with
  | .left => line.foldl (fun st c => emit_chunk st c none) s
  | .right =>
    let total_width := total_line_width s line
    let available := s.column_width - total_width
    let s := { s with cursor.x := s.params.col_margin_left + available }
    line.foldl (fun st c => emit_chunk st c none) s
  | .center =>
    let total_width := total_line_width s line
    let available := s.column_width - total_width
    let s := { s with cursor.x := s.params.col_margin_left + available / 2 }
    line.foldl (fun st c => emit_chunk st c none) s
  | .justify =>
    let space_width := justified_space_width s line
    line.foldl
      (fun st c => emit_chunk st c (if last then none else some space_width))
      s

/-- LayoutBuilder::finalize_line, from `src/layout.rs` lines 1307-1380:
strip trailing spaces unless final, account for the tallest point size,
then dispatch on the alignment. -/
def finalize_line (s : BurroState) (line : List EmitChunk) (last : Bool) :
    BurroState :=
  match line with
  | [] => s
  | _ =>
    match (if last then line else trim_trailing line) with
    | [] => s
    | first :: rest =>
      let line := first :: rest
      let starting_size := first.ptSize
      let max_size := line.foldl (fun m c => max m c.ptSize) first.ptSize
      let s := if max_size > starting_size
               then advance_y_cursor s (max_size - starting_size) else s
      finalize_line_dispatch s line last

/-- LayoutBuilder::finalize_current_chunks, from `src/layout.rs` lines
965-968: take the buffered chunks out of the builder and finalize them. -/
def finalize_current_chunks (s : BurroState) (last : Bool) : BurroState :=
  finalize_line { s with emit_chunks := [] } s.emit_chunks last

/-- The embedded subset of the Command enum from `src/parser.rs` lines
16-46 (`brk` stands for the Rust variant `Break`; `Break` is a keyword in
Lean's do-notation). -/
inductive Command where
  | align (arg : ResetArg Alignment)
  | pageWidth (arg : ResetArg ℚ)
  | pageHeight (arg : ResetArg ℚ)
  | pageBreak
  | columnBreak
  | leading (arg : ResetArg ℚ)
  | parSpace (arg : ResetArg ℚ)
  | spaceWidth (arg : ResetArg ℚ)
  | parIndent (arg : ResetArg ℚ)
  | family (arg : ResetArg String)
  | font (arg : ResetArg Font)
  | consecutiveHyphens (arg : ResetArg ℕ)
  | letterSpace (arg : ResetArg ℚ)
  | brk
  | spread
  | hspace (arg : ResetArg ℚ)
  | rule (opts : RuleOptions)
deriving DecidableEq, Repr

/-- Propagate a `handle_reset_val` outcome into a state update. -/
def apply_reset_outcome {α : Type}
    (r : PanicOr (Except BurroError (α × List α)))
    (put : α → List α → BurroState) : PanicOr (Except BurroError BurroState) :=
  match r with
  | .panic => .panic
  | .ok (.error e) => .ok (.error e)
  | .ok (.ok (v, q)) => .ok (.ok (put v q))

/-- LayoutBuilder::handle_command, from `src/layout.rs` lines 580-963,
restricted to the embedded Command variants.  Each arm is a full
translation of the corresponding Rust arm. -/
def handle_command (s : BurroState) (c : Command) :
    PanicOr (Except BurroError BurroState) :=
  match c with
  | .align arg =>
    match arg with
    | .explicit dir => .ok (.ok (set_alignment s dir))
    | .reset =>
      match s.alignments with
      | alignment :: rest =>
        .ok (.ok { s with params.alignment := alignment, alignments := rest })
      | [] => .ok (.error .emptyReset)
    | .relative _ => .ok (.error .invalidRelative)
  | .pageWidth arg =>
    match arg with
    | .explicit dim => .ok (.ok { s with pending_width := some dim })
    | .reset =>
      match s.page_widths with
      | width :: rest =>
        .ok (.ok { s with pending_width := some width, page_widths := rest })
      | [] =>
        if s.pending_width.isSome then .ok (.ok { s with pending_width := none })
        else .ok (.error .emptyReset)
    | .relative delta =>
      let s :=
        match s.pending_width with
        | some width => { s with page_widths := width :: s.page_widths }
        | none => s
      .ok (.ok { s with pending_width := some (s.params.page_width + delta) })
  | .pageHeight arg =>
    match arg with
    | .explicit dim => .ok (.ok { s with pending_height := some dim })
    | .reset =>
      match s.page_heights with
      | height :: rest =>
        .ok (.ok { s with pending_height := some height, page_heights := rest })
      | [] =>
        if s.pending_height.isSome then .ok (.ok { s with pending_height := none })
        else .ok (.error .emptyReset)
    | .relative delta =>
      let s :=
        match s.pending_height with
        | some height => { s with page_heights := height :: s.page_heights }
        | none => s
      .ok (.ok { s with pending_height := some (s.params.page_height + delta) })
  | .pageBreak => .ok (.ok (set_cursor_top_left (finish_page s)))
  | .leading arg =>
    apply_reset_outcome (handle_reset_val arg s.params.leading s.leadings)
      (fun v q => { s with params.leading := v, leadings := q })
  | .spaceWidth arg =>
    apply_reset_outcome (handle_reset_val arg s.params.space_width s.space_widths)
      (fun v q => { s with params.space_width := v, space_widths := q })
  | .parIndent arg =>
    apply_reset_outcome (handle_reset_val arg s.params.par_indent s.par_indents)
      (fun v q => { s with params.par_indent := v, par_indents := q })
  | .parSpace arg =>
    apply_reset_outcome (handle_reset_val arg s.params.par_space s.par_spaces)
      (fun v q => { s with params.par_space := v, par_spaces := q })
  | .family arg =>
    apply_reset_outcome (handle_reset_val arg s.params.font_family s.families)
      (fun v q => { s with params.font_family := v, families := q })
  | .font arg =>
    apply_reset_outcome (handle_reset_val arg s.font s.fonts)
      (fun v q => { s with font := v, fonts := q })
  | .consecutiveHyphens arg =>
    apply_reset_outcome
      (handle_reset_val arg s.params.consecutive_hyphens s.consecutive_hyphens)
      (fun v q => { s with params.consecutive_hyphens := v,
                           consecutive_hyphens := q })
  | .letterSpace arg =>
    apply_reset_outcome (handle_reset_val arg s.params.letter_space s.letter_spaces)
      (fun v q => { s with params.letter_space := v, letter_spaces := q })
  | .brk =>
    let s := finalize_current_chunks s true
    let s := { s with cursor.x := s.params.page_margin_left }
    .ok (.ok (advance_y_cursor s (s.params.leading + s.params.pt_size)))
  | .spread =>
    let s := finalize_current_chunks s false
    let s := { s with cursor.x := s.params.page_margin_left }
    .ok (.ok (advance_y_cursor s (s.params.leading + s.params.pt_size)))
  | .hspace arg =>
    match arg with
    | .explicit space =>
      let s := finalize_current_chunks s true
      let s := { s with cursor.x := s.cursor.x + space }
      if s.cursor.x ≥ s.params.col_margin_left + s.column_width then
        let s := { s with cursor.x := s.params.page_margin_left }
        .ok (.ok (advance_y_cursor s (s.params.leading + s.params.pt_size)))
      else .ok (.ok s)
    | .reset =>
      let s := finalize_current_chunks s true
      .ok (.ok { s with cursor.x := s.params.page_margin_left })
    | .relative _ => .ok (.error .invalidRelative)
  | .rule opts =>
    let rule_width := s.column_width * opts.width
    match s.params.alignment with
    | .justify | .left =>
      let x := opts.indent + s.params.page_margin_left
      .ok (.ok { s with current_page.boxes :=
        s.current_page.boxes ++
          [BurroBox.rule ⟨x, s.cursor.y⟩ ⟨x + rule_width, s.cursor.y⟩ opts.weight] })
    | .center =>
      let x := (s.column_width - rule_width) / 2 + opts.indent
               + s.params.page_margin_left
      .ok (.ok { s with current_page.boxes :=
        s.current_page.boxes ++
          [BurroBox.rule ⟨x, s.cursor.y⟩ ⟨x + rule_width, s.cursor.y⟩ opts.weight] })
    | .right =>
      let x := s.params.col_margin_left + s.column_width - opts.indent - rule_width
      .ok (.ok { s with current_page.boxes :=
        s.current_page.boxes ++
          [BurroBox.rule ⟨x, s.cursor.y⟩ ⟨x + rule_width, s.cursor.y⟩ opts.weight] })
  | .columnBreak =>
    if s.current_col ≥ s.column_count then
      .ok (.ok (move_to_next_page s))
    else
      .ok (.ok { s with
        current_col := s.current_col + 1,
        params.col_margin_left :=
          s.params.col_margin_left + (s.column_width + s.column_gutter),
        params.col_margin_right :=
          s.params.col_margin_right + (s.column_width + s.column_gutter),
        cursor := ⟨s.cursor.x + (s.column_width + s.column_gutter), s.column_top⟩ })

/-- Sequential command processing, as in the Node loop of
LayoutBuilder::build (`src/layout.rs` lines 1021-1027) restricted to
command nodes: the first error or panic aborts the build. -/
def runCmds : List Command → BurroState → PanicOr (Except BurroError BurroState)
  | [], s => .ok (.ok s)
  | c :: rest, s =>
    match handle_command s c with
    | .panic => .panic
    | .ok (.error e) => .ok (.error e)
    | .ok (.ok s') => runCmds rest s'

/-- LayoutBuilder::build, from `src/layout.rs` lines 1018-1035, for a
document whose nodes are all commands and whose config is empty (the
default DocConfig changes nothing in apply_config): after the node loop,
the in-progress page is flushed only when it holds at least one box. -/
def buildCmds (cmds : List Command) (s : BurroState) :
    PanicOr (Except BurroError Layout) :=
  match runCmds cmds s with
  | .panic => .panic
  | .ok (.error e) => .ok (.error e)
  | .ok (.ok s') =>
    .ok (.ok ⟨if s'.current_page.boxes.length > 0
              then s'.pages ++ [s'.current_page] else s'.pages⟩)

/-- The builder state produced by LayoutBuilder::new, from `src/layout.rs`
lines 351-427 (inch = 72, pt_size = 12). -/
def initialState : BurroState :=
  let inch : ℚ := 72
  let pt_size : ℚ := 12
  let params : BurroParams :=
    { margin_top := inch
      page_margin_left := inch
      page_margin_right := inch
      col_margin_left := inch
      col_margin_right := inch
      margin_bottom := inch
      pt_size := pt_size
      par_space := (1.25 : ℚ) * pt_size
      leading := 2
      alignment := .justify
      page_width := inch * (8.5 : ℚ)
      page_height := inch * 11
      space_width := pt_size / 4
      min_space_width := pt_size / 8
      font_family := "default"
      par_indent := 2 * pt_size
      hyphenate := true
      consecutive_hyphens := 3
      letter_space := 0
      ligatures := true }
  let cursor : Point2D :=
    { x := params.page_margin_left,
      y := params.page_height - (params.margin_top + params.pt_size + params.leading) }
  { params := params
    cursor := cursor
    current_page := Page.new params.page_width params.page_height
    emit_chunks := []
    pages := []
    font := Font.roman
    par_counter := 0
    alignments := []
    margins := []
    pt_sizes := []
    page_heights := []
    page_widths := []
    pending_height := none
    pending_width := none
    leadings := []
    space_widths := []
    par_indents := []
    par_spaces := []
    families := []
    fonts := []
    indent_first := false
    consecutive_hyphens := []
    hyphens := 0
    letter_spaces := []
    current_col := 1
    column_count := 1
    column_width := params.page_width - params.page_margin_left - params.page_margin_right
    column_gutter := 0
    column_top := cursor.y
    column_bottom := cursor.y }

/-- Observation: the state after a successfully handled command. -/
def stateAfter (c : Command) (s : BurroState) : Option BurroState :=
  match handle_command s c with
  | .ok (.ok s') => some s'
  | _ => none

/-- Observation: the cursor's x coordinate after a command. -/
def cursorXAfter (c : Command) (s : BurroState) : Option ℚ :=
  (stateAfter c s).map (fun s' => s'.cursor.x)

/-- Observation: the consecutive-hyphen counter after a command. -/
def hyphensAfter (c : Command) (s : BurroState) : Option ℕ :=
  (stateAfter c s).map (fun s' => s'.hyphens)

/-- Observation: the completed-pages list after a command. -/
def pagesAfter (c : Command) (s : BurroState) : Option (List Page) :=
  (stateAfter c s).map (fun s' => s'.pages)

/-- Observation: the boxes of the current page after a command. -/
def boxesAfter (c : Command) (s : BurroState) : Option (List BurroBox) :=
  (stateAfter c s).map (fun s' => s'.current_page.boxes)

/-- A shaper feature request, modelling `rustybuzz::Feature` as consumed by
EmitChunk::new: a tag, a value (0 disables the feature) and the byte range
it applies to. -/
structure Feature where
  tag : String
  value : ℕ
  start_ix : ℕ
  end_ix : ℕ
deriving DecidableEq, Repr

/-- The `lig_tags` array of EmitChunk::new, from `src/layout.rs` line 92. -/
def lig_tags : List String := ["liga", "dlig", "clig", "rlig"]

/-- The feature list EmitChunk::new passes to the shaper for a
`TextUnit::Str` with byte length `s_len`, from `src/layout.rs` lines
92-104: when ligatures are disabled, every tag in `lig_tags` is mapped to
a feature with value 0 over the whole string. -/
def str_shaping_features (ligatures : Bool) (s_len : ℕ) : List Feature :=
  if !ligatures then lig_tags.map (fun t => ⟨t, 0, 0, s_len⟩) else []

/-- One glyph of shaper output: id plus x/y advances in font units, the
interface consumed by EmitChunk::new (spec section 6). -/
structure ShapedGlyph where
  glyph_id : ℕ
  x_advance : ℤ
  y_advance : ℤ
deriving DecidableEq, Repr

/-- font_units_to_points, from `src/layout.rs` lines 1508-1510. -/
def font_units_to_points (units upem : ℤ) (pt_size : ℚ) : ℚ :=
  (units : ℚ) * pt_size / (upem : ℚ)

/-- The glyph-accumulation loop of EmitChunk::new on a `TextUnit::Str`,
from `src/layout.rs` lines 110-131: each glyph's width is its converted
x-advance plus `letter_space`, its `delta_x` is the running sum of the
widths before it. -/
def build_glyphs (upem : ℤ) (pt_size letter_space : ℚ) (font_id : ℕ) :
    ℚ → List ShapedGlyph → List LetterPos
  | _, [] => []
  | x, g :: rest =>
    let width := font_units_to_points g.x_advance upem pt_size + letter_space
    let delta_y := font_units_to_points g.y_advance upem pt_size
    { glyph_id := g.glyph_id, font_id := font_id, pt_size := pt_size,
      width := width, delta_y := delta_y, delta_x := x }
      :: build_glyphs upem pt_size letter_space font_id (x + width) rest

/-- EmitChunk::new on a `TextUnit::Str`, from `src/layout.rs` lines 83-138,
with the shaper's output supplied as data. -/
def mk_word_chunk (upem : ℤ) (pt_size letter_space : ℚ) (font_id : ℕ)
    (glyphs : List ShapedGlyph) (str : String) : EmitChunk :=
  .word pt_size (build_glyphs upem pt_size letter_space font_id 0 glyphs) str

/-- Well-formedness of a glyph run starting at offset `x`: each glyph's
`delta_x` is the running sum of the preceding widths, the invariant
established by the loop of EmitChunk::new. -/
def wfGlyphs : ℚ → List LetterPos → Prop
  | _, [] => True
  | x, g :: rest => g.delta_x = x ∧ wfGlyphs (x + g.width) rest

instance instDecidableWfGlyphs : (x : ℚ) → (gs : List LetterPos) →
    Decidable (wfGlyphs x gs)
  | _, [] => isTrue trivial
  | x, g :: rest =>
    have : Decidable (wfGlyphs (x + g.width) rest) :=
      instDecidableWfGlyphs (x + g.width) rest
    decidable_of_iff (g.delta_x = x ∧ wfGlyphs (x + g.width) rest)
      (by simp [wfGlyphs])

/-- A chunk is well formed when its glyph run is (spaces carry no glyphs). -/
def wfChunk : EmitChunk → Prop
  | .word _ glyphs _ => wfGlyphs 0 glyphs
  | .space _ _ => True
  | .nonBreakingSpace _ _ => True

instance : DecidablePred wfChunk := fun c =>
  match c with
  | .word _ glyphs _ => instDecidableWfGlyphs 0 glyphs
  | .space _ _ => isTrue trivial
  | .nonBreakingSpace _ _ => isTrue trivial

/-- The sum of the individual glyph widths of a chunk (0 for spaces). -/
def glyph_width_sum : EmitChunk → ℚ
  | .word _ glyphs _ => (glyphs.map LetterPos.width).sum
  | .space _ _ => 0
  | .nonBreakingSpace _ _ => 0

/-- The sum of all glyph widths across a line. -/
def line_glyph_width_sum (line : List EmitChunk) : ℚ :=
  (line.map glyph_width_sum).sum

/-- The number of space chunks in a line, as counted by
`justified_space_width` and `total_line_width`. -/
def space_count (line : List EmitChunk) : ℕ :=
  (line.filter (fun w => w.is_space)).length

/-- The possible line-ending events affecting the consecutive-hyphen
counter in LayoutBuilder::handle_text_block and the explicit-break
commands, abstracting the line-overflow loop of `src/layout.rs` lines
1103-1199:
* `autoBreak a hy c` — the overflow path through the hyphenation branch
  (lines 1135-1184) under alignment `a` and hyphenate flag `hy`;
  `c` records whether a qualifying candidate was committed
  (`best_start = Some`), which the source only produces inside the guard;
* `nbspBreak` — the non-breaking-space overflow path (line 1116);
* `tabOverflow` — the overlong-tab-word path (lines 1118-1125), which
  leaves the counter untouched;
* `explicitBreak` — a line ended by Break/Spread/VSpace/HSpace/tab
  commands or by the end of a paragraph, none of which touch the counter. -/
inductive LineEndEvent where
  | autoBreak (alignment : Alignment) (hyphenate : Bool) (committed : Bool)
  | nbspBreak
  | tabOverflow
  | explicitBreak
deriving DecidableEq, Repr

/-- The consecutive-hyphen counter update of the hyphenation branch, from
`src/layout.rs` lines 1135-1184: the attempt happens only when alignment
is Justify, hyphenation is on, and the counter is below the limit; a
committed candidate increments the counter, every other outcome resets it
to 0. -/
def hyph_counter_update (alignment : Alignment) (hyphenate : Bool)
    (limit hyphens : ℕ) (committed : Bool) : ℕ :=
  if alignment = .justify ∧ hyphenate = true ∧ hyphens < limit then
    if committed then hyphens + 1 else 0
  else 0

/-- The effect of one line-ending event on the consecutive-hyphen counter,
with the consecutive_hyphens limit held fixed. -/
def step_hyphens (limit hyphens : ℕ) : LineEndEvent → ℕ
  | .autoBreak a hy c => hyph_counter_update a hy limit hyphens c
  | .nbspBreak => 0
  | .tabOverflow => hyphens
  | .explicitBreak => hyphens

/-- The consecutive-hyphen counter after a sequence of line-ending events. -/
def run_line_ends (limit : ℕ) : List LineEndEvent → ℕ → ℕ
  | [], hyphens => hyphens
  | e :: rest, hyphens => run_line_ends limit rest (step_hyphens limit hyphens e)

/-- Modelled from the claim's words for C1 (spec section 4.5, Rule): the
rule's x position computed from `col_margin_left` for every alignment.
This is the specification-side definition, to be compared against the
source-side `handle_command` Rule arm. -/
def claim_rule_x (s : BurroState) (opts : RuleOptions) : ℚ :=
  let rule_width := s.column_width * opts.width
  match s.params.alignment with
  | .left | .justify => s.params.col_margin_left + opts.indent
  | .center =>
    s.params.col_margin_left + (s.column_width - rule_width) / 2 + opts.indent
  | .right =>
    s.params.col_margin_left + s.column_width - opts.indent - rule_width

/-- The rule x position the source actually computes (`src/layout.rs`
lines 756-807): based on `page_margin_left` for Left/Justify/Center and on
`col_margin_left` only for Right. -/
def amended_rule_x (s : BurroState) (opts : RuleOptions) : ℚ :=
  let rule_width := s.column_width * opts.width
  match s.params.alignment with
  | .left | .justify => opts.indent + s.params.page_margin_left
  | .center =>
    (s.column_width - rule_width) / 2 + opts.indent + s.params.page_margin_left
  | .right =>
    s.params.col_margin_left + s.column_width - opts.indent - rule_width

/-- The automatic-line-break cursor reset inside
LayoutBuilder::handle_text_block, from `src/layout.rs` lines 1114-1115 and
1195-1196: the cursor returns to `col_margin_left` (not
`page_margin_left`) and y advances by `leading + pt_size`. -/
def auto_line_break (s : BurroState) : BurroState :=
  advance_y_cursor { s with cursor.x := s.params.col_margin_left }
    (s.params.leading + s.params.pt_size)

/-- A state inside the second of two columns (`.columns` with count 2 and
gutter 20 followed by `.column_break` on letter-size paper with 1in
margins): column width (468 - 20) / 2 = 224, and the column margins and
cursor have been shifted right by 224 + 20, so `col_margin_left` = 316
differs from `page_margin_left` = 72.  The alignment is Left and the
cursor sits mid-column at (316, 400). -/
def secondColumnState : BurroState :=
  { initialState with
    params.alignment := .left,
    params.col_margin_left := 316,
    params.col_margin_right := 316 + 224,
    cursor := ⟨316, 400⟩,
    current_col := 2,
    column_count := 2,
    column_width := 224,
    column_gutter := 20 }

/-- A state in which two consecutive lines have just ended in committed
hyphens, so the consecutive-hyphen counter is 2 and the chunk buffer is
empty. -/
def twoHyphensState : BurroState :=
  { initialState with hyphens := 2 }

/-- A concrete justified line: a two-glyph word (widths 5 and 7, running
delta_x 0 and 5), a space of nominal width 3, and a one-glyph word of
width 10. -/
def witnessLine : List EmitChunk :=
  [ .word 12 [⟨1, 0, 12, 5, 0, 0⟩, ⟨2, 0, 12, 7, 0, 5⟩] "ab",
    .space 12 3,
    .word 12 [⟨3, 0, 12, 10, 0, 0⟩] "c" ]

/-- next_page_dims only touches the page dimensions, their save-stacks,
the pending buffers and the column width. -/
theorem next_page_dims_frame (s : BurroState) :
    (next_page_dims s).params.margin_top = s.params.margin_top ∧
    (next_page_dims s).params.margin_bottom = s.params.margin_bottom ∧
    (next_page_dims s).params.page_margin_left = s.params.page_margin_left ∧
    (next_page_dims s).params.col_margin_left = s.params.col_margin_left ∧
    (next_page_dims s).params.pt_size = s.params.pt_size ∧
    (next_page_dims s).params.leading = s.params.leading ∧
    (next_page_dims s).cursor = s.cursor ∧
    (next_page_dims s).hyphens = s.hyphens ∧
    (next_page_dims s).current_col = s.current_col ∧
    (next_page_dims s).pages = s.pages ∧
    (next_page_dims s).current_page = s.current_page := by
  unfold next_page_dims
  rcases hw : s.pending_width with _ | w <;> rcases hh : s.pending_height with _ | h <;>
    simp [hw, hh]

/-- finish_page pushes the filled page, starts a blank page with the next
page dimensions, and leaves the cursor, margins and hyphen counter alone. -/
theorem finish_page_frame (s : BurroState) :
    (finish_page s).pages = s.pages ++ [s.current_page] ∧
    (finish_page s).current_page.boxes = [] ∧
    (finish_page s).params.margin_top = s.params.margin_top ∧
    (finish_page s).params.margin_bottom = s.params.margin_bottom ∧
    (finish_page s).params.page_margin_left = s.params.page_margin_left ∧
    (finish_page s).params.pt_size = s.params.pt_size ∧
    (finish_page s).params.leading = s.params.leading ∧
    (finish_page s).cursor = s.cursor ∧
    (finish_page s).hyphens = s.hyphens ∧
    (finish_page s).current_col = s.current_col ∧
    (finish_page s).current_page.width = (finish_page s).params.page_width ∧
    (finish_page s).current_page.height = (finish_page s).params.page_height := by
  obtain ⟨h1, h2, h3, h4, h5, h6, h7, h8, h9, h10, h11⟩ := next_page_dims_frame s
  unfold finish_page
  simp [Page.new, h1, h2, h3, h5, h6, h7, h8, h9, h10, h11]

/-- move_to_next_page flushes the page, restores the column bookkeeping and
moves the cursor's y to the top of the new page, leaving the cursor's x
and the hyphen counter untouched. -/
theorem move_to_next_page_frame (s : BurroState) :
    (move_to_next_page s).pages = s.pages ++ [s.current_page] ∧
    (move_to_next_page s).current_page.boxes = [] ∧
    (move_to_next_page s).cursor.x = s.cursor.x ∧
    (move_to_next_page s).cursor.y =
      (move_to_next_page s).params.page_height
        - (s.params.margin_top + s.params.pt_size + s.params.leading) ∧
    (move_to_next_page s).current_col = 1 ∧
    (move_to_next_page s).params.col_margin_left = s.params.page_margin_left ∧
    (move_to_next_page s).params.col_margin_right =
      s.params.page_margin_left + (move_to_next_page s).column_width ∧
    (move_to_next_page s).column_top = (move_to_next_page s).cursor.y ∧
    (move_to_next_page s).params.page_margin_left = s.params.page_margin_left ∧
    (move_to_next_page s).hyphens = s.hyphens := by
  obtain ⟨h1, h2, h3, h4, h5, h6, h7, h8, h9, h10, h11, h12⟩ := finish_page_frame s
  unfold move_to_next_page
  simp_all

/-- advance_y_cursor never moves the cursor horizontally and never touches
the page's left margin or the hyphen counter. -/
theorem advance_y_cursor_frame (s : BurroState) (delta_y : ℚ) :
    (advance_y_cursor s delta_y).cursor.x = s.cursor.x ∧
    (advance_y_cursor s delta_y).params.page_margin_left =
      s.params.page_margin_left ∧
    (advance_y_cursor s delta_y).hyphens = s.hyphens := by
  have hmv : ∀ t : BurroState,
      (move_to_next_page t).cursor.x = t.cursor.x ∧
      (move_to_next_page t).params.page_margin_left = t.params.page_margin_left ∧
      (move_to_next_page t).hyphens = t.hyphens := by
    intro t
    obtain ⟨-, -, h3, -, -, -, -, -, h9, h10⟩ := move_to_next_page_frame t
    exact ⟨h3, h9, h10⟩
  simp only [advance_y_cursor]
  split <;> split <;> (try split) <;> simp_all

/-- advance_y_cursor leaves the cursor's x coordinate unchanged. -/
theorem advance_y_cursor_x (s : BurroState) (delta_y : ℚ) :
    (advance_y_cursor s delta_y).cursor.x = s.cursor.x :=
  (advance_y_cursor_frame s delta_y).1

/-- advance_y_cursor leaves the consecutive-hyphen counter unchanged. -/
theorem advance_y_cursor_hyphens (s : BurroState) (delta_y : ℚ) :
    (advance_y_cursor s delta_y).hyphens = s.hyphens :=
  (advance_y_cursor_frame s delta_y).2.2

/-- Emitting a glyph run never touches the page's left margin or the
hyphen counter. -/
theorem emit_glyphs_frame (gs : List LetterPos) :
    ∀ (start_x : ℚ) (s : BurroState),
    (emit_glyphs start_x s gs).params.page_margin_left =
      s.params.page_margin_left ∧
    (emit_glyphs start_x s gs).hyphens = s.hyphens := by
  induction gs with
  | nil => intro start_x s; exact ⟨rfl, rfl⟩
  | cons g rest ih =>
    intro start_x s
    cases rest with
    | nil =>
      simp only [emit_glyphs]
      obtain ⟨a1, a2, a3⟩ :=
        advance_y_cursor_frame
          (push_glyph_box { s with cursor.x := start_x + g.delta_x } g) g.delta_y
      split <;> simp_all [push_glyph_box]
    | cons g' rest' =>
      simp only [emit_glyphs]
      obtain ⟨ih1, ih2⟩ :=
        ih start_x
          (if g.delta_y > 0 then
            advance_y_cursor
              (push_glyph_box { s with cursor.x := start_x + g.delta_x } g)
              g.delta_y
          else push_glyph_box { s with cursor.x := start_x + g.delta_x } g)
      obtain ⟨a1, a2, a3⟩ :=
        advance_y_cursor_frame
          (push_glyph_box { s with cursor.x := start_x + g.delta_x } g) g.delta_y
      constructor
      · rw [ih1]; split <;> simp_all [push_glyph_box]
      · rw [ih2]; split <;> simp_all [push_glyph_box]

/-- Emitting one chunk never touches the page's left margin or the hyphen
counter. -/
theorem emit_chunk_frame (s : BurroState) (c : EmitChunk) (sw : Option ℚ) :
    (emit_chunk s c sw).params.page_margin_left = s.params.page_margin_left ∧
    (emit_chunk s c sw).hyphens = s.hyphens := by
  cases c with
  | word pt glyphs str => exact emit_glyphs_frame glyphs s.cursor.x s
  | space pt w => cases sw <;> simp [emit_chunk]
  | nonBreakingSpace pt w => cases sw <;> simp [emit_chunk]

/-- Emitting a whole line of chunks never touches the page's left margin or
the hyphen counter. -/
theorem emit_fold_frame (line : List EmitChunk) :
    ∀ (s : BurroState) (sw : Option ℚ),
    ((line.foldl (fun st c => emit_chunk st c sw) s).params.page_margin_left =
      s.params.page_margin_left) ∧
    ((line.foldl (fun st c => emit_chunk st c sw) s).hyphens = s.hyphens) := by
  induction line with
  | nil => intro s sw; exact ⟨rfl, rfl⟩
  | cons c rest ih =>
    intro s sw
    obtain ⟨e1, e2⟩ := emit_chunk_frame s c sw
    obtain ⟨i1, i2⟩ := ih (emit_chunk s c sw) sw
    exact ⟨by simp [List.foldl_cons, i1, e1], by simp [List.foldl_cons, i2, e2]⟩

/-- The alignment dispatch of finalize_line never touches the page's left
margin or the hyphen counter. -/
theorem finalize_line_dispatch_frame (s : BurroState) (line : List EmitChunk)
    (last : Bool) :
    (finalize_line_dispatch s line last).params.page_margin_left =
      s.params.page_margin_left ∧
    (finalize_line_dispatch s line last).hyphens = s.hyphens := by
  unfold finalize_line_dispatch
  split
  · exact emit_fold_frame line s none
  · obtain ⟨f1, f2⟩ := emit_fold_frame line
      { s with cursor.x :=
          s.params.col_margin_left + (s.column_width - total_line_width s line) }
      none
    exact ⟨f1, f2⟩
  · obtain ⟨f1, f2⟩ := emit_fold_frame line
      { s with cursor.x :=
          s.params.col_margin_left +
            (s.column_width - total_line_width s line) / 2 }
      none
    exact ⟨f1, f2⟩
  · exact emit_fold_frame line s _

/-- finalize_line never touches the page's left margin or the hyphen
counter. -/
theorem finalize_line_frame (s : BurroState) (line : List EmitChunk)
    (last : Bool) :
    (finalize_line s line last).params.page_margin_left =
      s.params.page_margin_left ∧
    (finalize_line s line last).hyphens = s.hyphens := by
  unfold finalize_line
  split
  · exact ⟨rfl, rfl⟩
  · split
    · exact ⟨rfl, rfl⟩
    · rename_i hne first rest heq
      obtain ⟨a1, a2, a3⟩ :=
        advance_y_cursor_frame s
          ((first :: rest).foldl (fun m c => max m c.ptSize) first.ptSize -
            first.ptSize)
      obtain ⟨d1, d2⟩ :=
        finalize_line_dispatch_frame
          (if (first :: rest).foldl (fun m c => max m c.ptSize) first.ptSize >
              first.ptSize then
            advance_y_cursor s
              ((first :: rest).foldl (fun m c => max m c.ptSize) first.ptSize -
                first.ptSize)
          else s)
          (first :: rest) last
      constructor
      · rw [d1]; split <;> simp_all
      · rw [d2]; split <;> simp_all

/-- The glyph runs produced by the loop of EmitChunk::new are well formed:
each `delta_x` is the running sum of the widths before it. -/
theorem build_glyphs_wf (upem : ℤ) (pt_size letter_space : ℚ) (font_id : ℕ) :
    ∀ (gs : List ShapedGlyph) (x : ℚ),
      wfGlyphs x (build_glyphs upem pt_size letter_space font_id x gs) := by
  intro gs
  induction gs with
  | nil => intro x; simp [build_glyphs, wfGlyphs]
  | cons g rest ih =>
    intro x
    simp only [build_glyphs, wfGlyphs]
    exact ⟨by simp, ih _⟩

/-- In a well-formed glyph run starting at `x`, the last glyph's
`delta_x + width` equals `x` plus the sum of all glyph widths. -/
theorem wf_getLast (gs : List LetterPos) :
    ∀ (x : ℚ) (l : LetterPos), wfGlyphs x gs → gs.getLast? = some l →
      l.delta_x + l.width = x + (gs.map LetterPos.width).sum := by
  induction gs with
  | nil => intro x l _ h; simp at h
  | cons g rest ih =>
    intro x l hwf hl
    cases rest with
    | nil =>
      obtain ⟨h1, -⟩ := hwf
      simp only [List.getLast?_singleton, Option.some.injEq] at hl
      subst hl
      simp [h1]
    | cons g' rest' =>
      obtain ⟨h1, h2⟩ := hwf
      rw [List.getLast?_cons_cons] at hl
      have := ih (x + g.width) l h2 hl
      simp only [List.map_cons, List.sum_cons] at this ⊢
      linarith

/-- For a well-formed non-space chunk, the chunk width computed by
EmitChunk::width (last glyph's `delta_x + width`) equals the sum of the
individual glyph widths. -/
theorem chunk_width_of_wf (c : EmitChunk) (hwf : wfChunk c)
    (hs : c.is_space = false) : c.width = glyph_width_sum c := by
  cases c with
  | word pt glyphs str =>
    cases hg : glyphs.getLast? with
    | none =>
      have : glyphs = [] := by
        cases glyphs with
        | nil => rfl
        | cons a as => simp [List.getLast?_eq_getLast] at hg
      subst this
      simp [EmitChunk.width, glyph_width_sum]
    | some l =>
      have := wf_getLast glyphs 0 l hwf hg
      simp [EmitChunk.width, glyph_width_sum, hg, this]
  | space pt w => simp [EmitChunk.is_space] at hs
  | nonBreakingSpace pt w => simp [EmitChunk.is_space] at hs

/-- Every chunk surviving the trailing-space strip was in the line. -/
theorem mem_trim_trailing (l : List EmitChunk) :
    ∀ c, c ∈ trim_trailing l → c ∈ l := by
  induction l with
  | nil => intro c h; simp [trim_trailing] at h
  | cons c0 rest ih =>
    intro c h
    simp only [trim_trailing] at h
    cases htr : trim_trailing rest with
    | nil =>
      rw [htr] at h
      by_cases hsp : c0.is_space <;> simp [hsp] at h
      · exact h ▸ List.mem_cons_self c0 rest
    | cons r rs =>
      rw [htr] at h
      rcases List.mem_cons.mp h with h | h
      · exact h ▸ List.mem_cons_self c0 rest
      · exact List.mem_cons_of_mem c0 (ih c (htr ▸ h))

/-- After the trailing-space strip, the last chunk (if any) is not a
space. -/
theorem trim_trailing_getLast_not_space (l : List EmitChunk) :
    ∀ c, (trim_trailing l).getLast? = some c → c.is_space = false := by
  induction l with
  | nil => intro c h; simp [trim_trailing] at h
  | cons c0 rest ih =>
    intro c h
    simp only [trim_trailing] at h
    cases htr : trim_trailing rest with
    | nil =>
      rw [htr] at h
      by_cases hsp : c0.is_space <;> simp [hsp] at h
      · subst h
        simpa using hsp
    | cons r rs =>
      rw [htr] at h
      rw [List.getLast?_cons_cons] at h
      exact ih c (htr ▸ h)

/-- Across a line of well-formed chunks, the word-width sum used by
total_line_width equals the sum of all individual glyph widths. -/
theorem word_width_eq_glyph_sum (l : List EmitChunk)
    (hwf : ∀ c ∈ l, wfChunk c) :
    ((l.filter (fun w => !w.is_space)).map EmitChunk.width).sum =
      line_glyph_width_sum l := by
  induction l with
  | nil => simp [line_glyph_width_sum]
  | cons c rest ih =>
    have hrest := ih (fun c hc => hwf c (List.mem_cons_of_mem _ hc))
    by_cases hsp : c.is_space
    · have hz : glyph_width_sum c = 0 := by
        cases c with
        | word pt glyphs str => simp [EmitChunk.is_space] at hsp
        | space pt w => simp [glyph_width_sum]
        | nonBreakingSpace pt w => simp [glyph_width_sum]
      have hfil : (c :: rest).filter (fun w => !w.is_space) =
          rest.filter (fun w => !w.is_space) := by
        simp [List.filter_cons, hsp]
      simp only [line_glyph_width_sum, List.map_cons, List.sum_cons]
      rw [hfil, hrest, hz, zero_add]
      simp [line_glyph_width_sum]
    · have hw := chunk_width_of_wf c (hwf c (List.mem_cons_self c rest))
        (by simpa using hsp)
      have hfil : (c :: rest).filter (fun w => !w.is_space) =
          c :: rest.filter (fun w => !w.is_space) := by
        simp [List.filter_cons, hsp]
      simp only [line_glyph_width_sum, List.map_cons, List.sum_cons]
      rw [hfil]
      simp only [List.map_cons, List.sum_cons]
      rw [hw, hrest]
      simp [line_glyph_width_sum]

/-- When the last chunk of a non-empty line is not a space,
total_line_width is the glyph-width sum plus nominal space widths. -/
theorem total_line_width_eq (s : BurroState) (t : List EmitChunk)
    (hne : t ≠ [])
    (hlast : ∀ c, t.getLast? = some c → c.is_space = false)
    (hwf : ∀ c ∈ t, wfChunk c) :
    total_line_width s t =
      line_glyph_width_sum t + s.params.space_width * space_count t := by
  obtain ⟨c0, t', rfl⟩ := List.exists_cons_of_ne_nil hne
  have hsome : ((c0 :: t').getLast?).isSome :=
    List.getLast?_isSome.mpr (by simp)
  obtain ⟨lastc, hl⟩ := Option.isSome_iff_exists.mp hsome
  have hlastc := hlast _ hl
  unfold total_line_width
  simp only [hl]
  rw [if_neg (by simp [hlastc])]
  rw [word_width_eq_glyph_sum _ hwf]
  rfl

/-- One hyphenation-branch update never pushes the counter past the limit:
an increment requires the counter to be strictly below it. -/
theorem hyph_counter_update_le (a : Alignment) (hy : Bool)
    (limit hyphens : ℕ) (committed : Bool) :
    hyph_counter_update a hy limit hyphens committed ≤ limit := by
  unfold hyph_counter_update
  split
  · rename_i hguard
    split
    · exact hguard.2.2
    · exact Nat.zero_le _
  · exact Nat.zero_le _

/-- One line-ending event keeps the counter at or below the limit. -/
theorem step_hyphens_le (limit hyphens : ℕ) (e : LineEndEvent)
    (hh : hyphens ≤ limit) : step_hyphens limit hyphens e ≤ limit := by
  cases e with
  | autoBreak a hy c => exact hyph_counter_update_le a hy limit hyphens c
  | nbspBreak => exact Nat.zero_le _
  | tabOverflow => exact hh
  | explicitBreak => exact hh

/-- C1 counterexample: in a state inside the second column, where
`col_margin_left` (316) differs from `page_margin_left` (72), a Rule
command under Left alignment emits its box starting at x = 72
(page_margin_left + indent), not at col_margin_left + indent = 316 as the
claim requires. -/
theorem c1_rule_col_margin_cex :
    boxesAfter (.rule ⟨1 / 2, 0, 1⟩) secondColumnState =
      some [BurroBox.rule ⟨72, 400⟩ ⟨184, 400⟩ 1] ∧
    claim_rule_x secondColumnState ⟨1 / 2, 0, 1⟩ = 316 ∧
    (72 : ℚ) ≠ 316 := by
  refine ⟨?_, ?_, by norm_num⟩
  · norm_num [boxesAfter, stateAfter, handle_command, secondColumnState,
      initialState, Page.new]
  · norm_num [claim_rule_x, secondColumnState, initialState]

/-- C1 amended: for every Rule command, with
rule_width = column_width * width, the emitted Rule box runs from
(x, cursor.y) to (x + rule_width, cursor.y), where x is computed from the
current alignment as: Left or Justify -> page_margin_left + indent;
Center -> page_margin_left + (column_width - rule_width)/2 + indent;
Right -> col_margin_left + column_width - indent - rule_width.  Only the
Right arm uses col_margin_left; the other arms are anchored at
page_margin_left, so the claim's col_margin_left-based positions hold only
in states where the two margins coincide.  Nothing else in the state
changes. -/
theorem c1_rule_amended (s : BurroState) (opts : RuleOptions) :
    boxesAfter (.rule opts) s =
      some (s.current_page.boxes ++
        [BurroBox.rule ⟨amended_rule_x s opts, s.cursor.y⟩
          ⟨amended_rule_x s opts + s.column_width * opts.width, s.cursor.y⟩
          opts.weight]) ∧
    (stateAfter (.rule opts) s).map
        (fun s' => { s' with current_page.boxes := s.current_page.boxes }) =
      some s := by
  cases h : s.params.alignment <;>
    simp [boxesAfter, stateAfter, handle_command, amended_rule_x, h]

/-- C2: for a Str text unit shaped with ligatures disabled, the feature
set built by EmitChunk::new assigns value 0 (disabled) to all four tags
liga, dlig, clig and rlig over the whole byte range — contrary to the
claim (and to the source's own comment, which says rlig is not disabled,
those ligatures being required); with ligatures enabled the feature set is
empty. -/
theorem c2_rlig_disabled :
    str_shaping_features false 2 =
      [⟨"liga", 0, 0, 2⟩, ⟨"dlig", 0, 0, 2⟩, ⟨"clig", 0, 0, 2⟩,
       ⟨"rlig", 0, 0, 2⟩] ∧
    (⟨"rlig", 0, 0, 2⟩ : Feature) ∈ str_shaping_features false 2 ∧
    str_shaping_features true 2 = [] := by decide

/-- C3 counterexample: a Font command with a Relative argument makes the
engine hit the `unreachable!()` default of UpdateRelative::update — a
panic, not a returned `Err(InvalidRelative)`. -/
theorem c3_font_relative_panics :
    handle_command initialState (.font (.relative Font.bold)) = .panic ∧
    handle_command initialState (.font (.relative Font.bold)) ≠
      .ok (.error BurroError.invalidRelative) :=
  ⟨rfl, fun h => nomatch h⟩

/-- C3 amended: a Relative argument on the two non-numeric parameters whose
command arms check for it (alignment via Align, hspace via HSpace) makes
handle_command return the typed error InvalidRelative; but on the two
parameters routed through the generic handle_reset_val (font via Font,
family via Family) the engine instead panics through the `unreachable!()`
default of UpdateRelative::update (the parser already rejects those forms,
so the layout path is believed unreachable). -/
theorem c3_invalid_relative_amended (s : BurroState) (a : Alignment) (d : ℚ)
    (f : Font) (fam : String) :
    handle_command s (.align (.relative a)) = .ok (.error .invalidRelative) ∧
    handle_command s (.hspace (.relative d)) = .ok (.error .invalidRelative) ∧
    handle_command s (.font (.relative f)) = .panic ∧
    handle_command s (.family (.relative fam)) = .panic :=
  ⟨rfl, rfl, rfl, rfl⟩

/-- C4 counterexample: a ColumnBreak in the last column of a state whose
cursor x is 316 leaves cursor.x = 316, not page_margin_left = 72 as the
claim requires (move_to_next_page never assigns cursor.x). -/
theorem c4_columnbreak_cursor_x_cex :
    cursorXAfter .columnBreak secondColumnState = some 316 ∧
    secondColumnState.params.page_margin_left = 72 ∧
    (316 : ℚ) ≠ 72 := by
  refine ⟨?_, by norm_num [secondColumnState, initialState], by norm_num⟩
  norm_num [cursorXAfter, stateAfter, handle_command, move_to_next_page,
    finish_page, next_page_dims, secondColumnState, initialState]

/-- C4 amended: for every ColumnBreak executed when
current_col >= column_count, the engine calls move_to_next_page, which
flushes the current page, opens a new (empty) one, resets
cursor.y = page_height - (margin_top + pt_size + leading), resets
current_col to 1, col_margin_left to page_margin_left and column_top to
the new cursor.y — but leaves cursor.x unchanged (unlike PageBreak, which
also sets cursor.x = page_margin_left).  When current_col < column_count
it instead increments the column, shifts the column margins and cursor.x
by column_width + column_gutter, and resets cursor.y to column_top. -/
theorem c4_columnbreak_amended (s : BurroState) :
    (move_to_next_page s).pages = s.pages ++ [s.current_page] ∧
    (move_to_next_page s).current_page.boxes = [] ∧
    (move_to_next_page s).cursor.y =
      (move_to_next_page s).params.page_height -
        (s.params.margin_top + s.params.pt_size + s.params.leading) ∧
    (move_to_next_page s).cursor.x = s.cursor.x ∧
    (move_to_next_page s).current_col = 1 ∧
    (move_to_next_page s).params.col_margin_left = s.params.page_margin_left ∧
    (move_to_next_page s).column_top = (move_to_next_page s).cursor.y ∧
    stateAfter .columnBreak s =
      some (if s.current_col ≥ s.column_count then move_to_next_page s
            else { s with
              current_col := s.current_col + 1,
              params.col_margin_left :=
                s.params.col_margin_left + (s.column_width + s.column_gutter),
              params.col_margin_right :=
                s.params.col_margin_right + (s.column_width + s.column_gutter),
              cursor := ⟨s.cursor.x + (s.column_width + s.column_gutter),
                         s.column_top⟩ }) := by
  obtain ⟨h1, h2, h3, h4, h5, h6, h7, h8, h9, h10⟩ := move_to_next_page_frame s
  refine ⟨h1, h2, h4, h3, h5, h6, h8, ?_⟩
  by_cases hcond : s.current_col ≥ s.column_count <;>
    simp [stateAfter, handle_command, hcond]

/-- C7 counterexample: a Break command ends the current line, yet the
consecutive-hyphen counter is not reset: from a state with counter 2 it
stays 2 after the Break, refuting the claim that the counter is reset to 0
whenever a line ends without a committed hyphen. -/
theorem c7_break_no_reset_cex :
    hyphensAfter .brk twoHyphensState = some 2 ∧ (2 : ℕ) ≠ 0 := by
  refine ⟨?_, by decide⟩
  norm_num [hyphensAfter, stateAfter, handle_command, finalize_current_chunks,
    finalize_line, advance_y_cursor, twoHyphensState, initialState]

/-- C7 amended: a hyphenation attempt is made only when alignment =
Justify, hyphenate = true and the counter is strictly below the
consecutive_hyphens limit, and the counter is incremented only when a
candidate is committed; it is reset to 0 on automatic line breaks without
a committed hyphen (including the non-breaking-space path) but persists
unchanged across explicit line ends (Break, Spread, paragraph ends) and
the overlong-tab-word path.  Consequently, with the consecutive_hyphens
limit held fixed, the counter never exceeds the limit across any sequence
of line endings, so over any paragraph the number of consecutive
hyphenated lines never exceeds consecutive_hyphens. -/
theorem c7_hyphen_cap_amended :
    (∀ (limit : ℕ) (evs : List LineEndEvent) (h0 : ℕ),
        h0 ≤ limit → run_line_ends limit evs h0 ≤ limit) ∧
    (∀ s : BurroState, hyphensAfter .brk s = some s.hyphens) ∧
    (∀ s : BurroState, hyphensAfter .spread s = some s.hyphens) := by
  refine ⟨?_, ?_, ?_⟩
  · intro limit evs
    induction evs with
    | nil => intro h0 hh; exact hh
    | cons e rest ih =>
      intro h0 hh
      exact ih (step_hyphens limit h0 e) (step_hyphens_le limit h0 e hh)
  · intro s
    obtain ⟨-, f2⟩ := finalize_line_frame { s with emit_chunks := [] }
      s.emit_chunks true
    simp [hyphensAfter, stateAfter, handle_command, finalize_current_chunks,
      advance_y_cursor_hyphens, f2]
  · intro s
    obtain ⟨-, f2⟩ := finalize_line_frame { s with emit_chunks := [] }
      s.emit_chunks false
    simp [hyphensAfter, stateAfter, handle_command, finalize_current_chunks,
      advance_y_cursor_hyphens, f2]

/-- C7 witness: with limit 3, two committed hyphenation breaks followed by
an explicit break keep the counter at 2 ≤ 3, starting from 0 ≤ 3. -/
theorem c7_hyphen_cap_witness :
    (0 : ℕ) ≤ 3 ∧
    run_line_ends 3
      [.autoBreak .justify true true, .autoBreak .justify true true,
       .explicitBreak] 0 ≤ 3 :=
  ⟨by decide,
   c7_hyphen_cap_amended.1 3
     [.autoBreak .justify true true, .autoBreak .justify true true,
      .explicitBreak] 0 (by decide)⟩

/-- C9: after a Break or Spread command the cursor's x is
page_margin_left, not col_margin_left — in any column after the first the
next line starts at the page's left margin, outside the current column —
whereas an automatic line break inside a paragraph restarts the cursor at
col_margin_left. -/
theorem c9_break_cursor_x (s : BurroState) :
    cursorXAfter .brk s = some s.params.page_margin_left ∧
    cursorXAfter .spread s = some s.params.page_margin_left ∧
    (auto_line_break s).cursor.x = s.params.col_margin_left := by
  have advance_x : ∀ (t : BurroState) (v d : ℚ),
      (advance_y_cursor { t with cursor.x := v } d).cursor.x = v := by
    intro t v d
    obtain ⟨h, -, -⟩ := advance_y_cursor_frame { t with cursor.x := v } d
    simpa using h
  refine ⟨?_, ?_, ?_⟩
  · obtain ⟨f1, -⟩ := finalize_line_frame { s with emit_chunks := [] }
      s.emit_chunks true
    simp only [cursorXAfter, stateAfter, handle_command]
    simp only [finalize_current_chunks] at f1 ⊢
    simp [advance_x, f1]
  · obtain ⟨f1, -⟩ := finalize_line_frame { s with emit_chunks := [] }
      s.emit_chunks false
    simp only [cursorXAfter, stateAfter, handle_command]
    simp only [finalize_current_chunks] at f1 ⊢
    simp [advance_x, f1]
  · exact advance_x s s.params.col_margin_left
      (s.params.leading + s.params.pt_size)

/-- C5: for every line finalized under Justify alignment with last = false
(after the trailing-space strip that finalize_line performs in that case)
that contains at least one space chunk and whose word chunks carry the
running-sum glyph positions EmitChunk::new produces, the sum of all glyph
widths plus the stretched width assigned to each space chunk equals
column_width - (line_start_x - col_margin_left), where line_start_x is the
cursor x at the moment the line is finalized. -/
theorem c5_justified_line_fill (s : BurroState) (line : List EmitChunk)
    (hwf : ∀ c ∈ line, wfChunk c)
    (hsp : 1 ≤ space_count (trim_trailing line)) :
    line_glyph_width_sum (trim_trailing line) +
      (space_count (trim_trailing line) : ℚ) *
        justified_space_width s (trim_trailing line) =
    s.column_width - (s.cursor.x - s.params.col_margin_left) := by
  set t := trim_trailing line with ht
  have hne : t ≠ [] := by
    intro h
    rw [h] at hsp
    simp [space_count] at hsp
  have hwt : ∀ c ∈ t, wfChunk c := fun c hc =>
    hwf c (mem_trim_trailing line c (ht ▸ hc))
  have hlast : ∀ c, t.getLast? = some c → c.is_space = false := fun c hc =>
    trim_trailing_getLast_not_space line c (ht ▸ hc)
  have htot := total_line_width_eq s t hne hlast hwt
  have hn : ((space_count t : ℚ)) ≠ 0 := by
    have h1 : (1 : ℚ) ≤ (space_count t : ℚ) := by exact_mod_cast hsp
    linarith
  rw [show justified_space_width s t =
        s.params.space_width +
          (s.column_width - total_line_width s t -
            (s.cursor.x - s.params.col_margin_left)) / (space_count t : ℚ)
      from rfl]
  rw [htot]
  field_simp
  ring

/-- C5 witness: the identity holds for the concrete witness line in the
initial state (column_width 468, cursor at the left column margin,
space_width 3): glyph widths 5 + 7 + 10 = 22, one space stretched to
3 + (468 - 25) = 446, and 22 + 446 = 468. -/
theorem c5_justified_line_fill_witness :
    (∀ c ∈ witnessLine, wfChunk c) ∧
    1 ≤ space_count (trim_trailing witnessLine) ∧
    line_glyph_width_sum (trim_trailing witnessLine) +
      (space_count (trim_trailing witnessLine) : ℚ) *
        justified_space_width initialState (trim_trailing witnessLine) =
      initialState.column_width -
        (initialState.cursor.x - initialState.params.col_margin_left) := by
  have h1 : ∀ c ∈ witnessLine, wfChunk c := by
    intro c hc
    simp only [witnessLine, List.mem_cons, List.not_mem_nil, or_false] at hc
    rcases hc with rfl | rfl | rfl <;> norm_num [wfChunk, wfGlyphs]
  have h2 : 1 ≤ space_count (trim_trailing witnessLine) := by decide
  exact ⟨h1, h2, c5_justified_line_fill initialState witnessLine h1 h2⟩

/-- C6: for every numeric layout parameter handled through the generic
save-stack (leading, space_width, par_indent, par_space, letter_space,
consecutive_hyphens), and for every starting state: applying Explicit(x)
then Reset restores the state exactly, and applying Relative(d) then Reset
likewise restores it. -/
theorem c6_save_stack_roundtrip (s : BurroState) (x d : ℚ) (n m : ℕ) :
    runCmds [.leading (.explicit x), .leading .reset] s = .ok (.ok s) ∧
    runCmds [.leading (.relative d), .leading .reset] s = .ok (.ok s) ∧
    runCmds [.spaceWidth (.explicit x), .spaceWidth .reset] s = .ok (.ok s) ∧
    runCmds [.spaceWidth (.relative d), .spaceWidth .reset] s = .ok (.ok s) ∧
    runCmds [.parIndent (.explicit x), .parIndent .reset] s = .ok (.ok s) ∧
    runCmds [.parIndent (.relative d), .parIndent .reset] s = .ok (.ok s) ∧
    runCmds [.parSpace (.explicit x), .parSpace .reset] s = .ok (.ok s) ∧
    runCmds [.parSpace (.relative d), .parSpace .reset] s = .ok (.ok s) ∧
    runCmds [.letterSpace (.explicit x), .letterSpace .reset] s = .ok (.ok s) ∧
    runCmds [.letterSpace (.relative d), .letterSpace .reset] s = .ok (.ok s) ∧
    runCmds [.consecutiveHyphens (.explicit n), .consecutiveHyphens .reset] s =
      .ok (.ok s) ∧
    runCmds [.consecutiveHyphens (.relative m), .consecutiveHyphens .reset] s =
      .ok (.ok s) :=
  ⟨rfl, rfl, rfl, rfl, rfl, rfl, rfl, rfl, rfl, rfl, rfl, rfl⟩

/-- C8: a PageWidth(Explicit v) or PageHeight(Explicit v) command only
buffers v as the pending dimension, changing nothing else — not the
current page, not the page_width/page_height parameters, not any emitted
box; the pending width is first applied by the next finish_page, at which
point the prior page_width is pushed onto its save-stack, the pending
value is cleared, the flushed page keeps the old dimensions and the new
blank page has width v. -/
theorem c8_pending_page_dims (s : BurroState) (v : ℚ) :
    handle_command s (.pageWidth (.explicit v)) =
      .ok (.ok { s with pending_width := some v }) ∧
    handle_command s (.pageHeight (.explicit v)) =
      .ok (.ok { s with pending_height := some v }) ∧
    (finish_page { s with pending_width := some v }).params.page_width = v ∧
    (finish_page { s with pending_width := some v }).current_page.width = v ∧
    (finish_page { s with pending_width := some v }).current_page.boxes = [] ∧
    (finish_page { s with pending_width := some v }).page_widths =
      s.params.page_width :: s.page_widths ∧
    (finish_page { s with pending_width := some v }).pending_width = none ∧
    (finish_page { s with pending_width := some v }).pages =
      s.pages ++ [s.current_page] ∧
    (finish_page { s with pending_width := some v }).column_width =
      v - s.params.page_margin_left - s.params.page_margin_right := by
  refine ⟨rfl, rfl, ?_, ?_, ?_, ?_, ?_, ?_, ?_⟩ <;>
    · unfold finish_page next_page_dims
      rcases hh : s.pending_height with _ | h <;> simp [hh, Page.new]

/-- C10: PageBreak always pushes the current page onto the output — even
when its box list is empty, so an interior blank page survives; only the
final in-progress page is suppressed when empty, as the two-PageBreak
document shows (two interior blank pages, no third page), while a document
whose final page holds a box (a rule) gets that page appended. -/
theorem c10_empty_page_suppression :
    (∀ s : BurroState,
        pagesAfter .pageBreak s = some (s.pages ++ [s.current_page])) ∧
    buildCmds [.pageBreak, .pageBreak] initialState =
      .ok (.ok ⟨[Page.new 612 792, Page.new 612 792]⟩) ∧
    (Page.new 612 792).boxes = [] ∧
    buildCmds [.rule ⟨1, 0, 1⟩] initialState =
      .ok (.ok ⟨[{ Page.new 612 792 with
        boxes := [.rule ⟨72, 706⟩ ⟨540, 706⟩ 1] }]⟩) := by
  refine ⟨?_, ?_, by norm_num [Page.new], ?_⟩
  · intro s
    obtain ⟨h1, h2, h3, h4, h5, h6, h7, h8, h9, h10, h11, h12⟩ :=
      finish_page_frame s
    simp [pagesAfter, stateAfter, handle_command, set_cursor_top_left, h1]
  · norm_num [buildCmds, runCmds, handle_command, finish_page, next_page_dims,
      set_cursor_top_left, initialState, Page.new]
  · norm_num [buildCmds, runCmds, handle_command, initialState, Page.new]

end Burro
